import Mathlib

/-!
Shallow embedding of the stock-exchange server core (server.js, later
revision) together with the user schema defaults (models/User.js and
routes/auth.js).  JS numbers are modelled as exact rationals (ℚ); the
in-memory maps (`STOCKS`, `activeConnections`, the mongoose `alerts` Map)
are modelled as association lists; `Math.random()` draws are threaded in
as explicit parameters.  String formatting (`toFixed(2)`) is rendered via
`toString` of the rational, which preserves which message is produced.
-/

/-- One entry of `user.portfolio` (HoldingSchema in models/User.js). -/
structure Holding where
  ticker : String
  quantity : ℚ
  avgPrice : ℚ
deriving Repr, DecidableEq

/-- One entry of `user.transactions` (TransactionSchema in models/User.js).
The `date` field (defaulted to the wall clock) is not modelled. -/
structure Transaction where
  action : String
  ticker : String
  quantity : ℚ
  price : ℚ
  tradeValue : ℚ
deriving Repr, DecidableEq

/-- The persisted user record (UserSchema in models/User.js).  The hashed
`password` field is not modelled: no core operation reads it. -/
structure UserAccount where
  email : String
  cash : ℚ
  portfolio : List Holding
  subscriptions : List String
  alerts : List (String × ℚ)
  transactions : List Transaction
deriving Repr, DecidableEq

/-- `new User({ email, password })` in routes/auth.js: every field other
than email/password takes its UserSchema default
(cash 100000.00, empty portfolio/subscriptions/alerts/transactions). -/
def newUser (email : String) : UserAccount :=
  { email := email
    cash := 100000
    portfolio := []
    subscriptions := []
    alerts := []
    transactions := [] }

/-- `SUPPORTED_STOCKS` in server.js. -/
def SUPPORTED_STOCKS : List String := ["GOOG", "TSLA", "AMZN", "META", "NVDA"]

/-- Replace the first element satisfying `p` by its image under `f`;
models JS mutating the object returned by `Array.prototype.find`. -/
def modifyFirst (p : α → Bool) (f : α → α) : List α → List α
  | [] => []
  | a :: as => if p a then f a :: as else a :: modifyFirst p f as

/-- Render a rational for a client-facing message (JS uses `toFixed(2)`;
we render the exact value, which keeps distinct messages distinct). -/
def fmt (x : ℚ) : String := toString x

/-- Result record of `updatePortfolio` in server.js (later revision,
which also returns a `success` flag). -/
structure UpdateResult where
  portfolio : List Holding
  tradeMsg : String
  success : Bool
deriving Repr, DecidableEq

/-- `updatePortfolio(portfolio, ticker, quantity, type, price)` in
server.js.  BUY merges into the holding found by `find` (weighted-average
cost) or pushes a new one and always succeeds; SELL fails when no holding
exists or it holds fewer shares than requested, otherwise decrements the
found holding and filters the ticker out when the quantity reaches 0. -/
def updatePortfolio (portfolio : List Holding) (ticker : String) (quantity : ℚ)
    (type : String) (price : ℚ) : UpdateResult :=
  let holding? := portfolio.find? (fun h => h.ticker == ticker)
  if type == "BUY" then
    let totalCost := quantity * price
    let newPortfolio :=
      match holding? with
      | some _ =>
          modifyFirst (fun h => h.ticker == ticker)
            (fun h =>
              { h with
                avgPrice := (h.quantity * h.avgPrice + totalCost) / (h.quantity + quantity)
                quantity := h.quantity + quantity })
            portfolio
      | none => portfolio ++ [{ ticker := ticker, quantity := quantity, avgPrice := price }]
    { portfolio := newPortfolio
      tradeMsg := "Successfully bought " ++ fmt quantity ++ " shares of " ++ ticker
        ++ " @ $" ++ fmt price ++ "."
      success := true }
  else if type == "SELL" then
    match holding? with
    | none =>
        { portfolio := portfolio
          tradeMsg := "Trade failed: You only hold " ++ fmt 0 ++ " shares of " ++ ticker ++ "."
          success := false }
    | some holding =>
        if holding.quantity < quantity then
          { portfolio := portfolio
            tradeMsg := "Trade failed: You only hold " ++ fmt holding.quantity
              ++ " shares of " ++ ticker ++ "."
            success := false }
        else
          let reduced := modifyFirst (fun h => h.ticker == ticker)
            (fun h => { h with quantity := h.quantity - quantity }) portfolio
          let newPortfolio :=
            if holding.quantity - quantity = 0 then
              reduced.filter (fun h => h.ticker != ticker)
            else reduced
          { portfolio := newPortfolio
            tradeMsg := "Successfully sold " ++ fmt quantity ++ " shares of " ++ ticker
              ++ " @ $" ++ fmt price ++ "."
            success := true }
  else { portfolio := portfolio, tradeMsg := "", success := false }

/-- Outcome of `processTrade`: the user record as saved, the `tradeMsg`
sent back (absent when the switch matches neither BUY nor SELL, i.e.
`tradeMsg` stays `undefined`), and the `success` flag. -/
structure TradeResult where
  user : UserAccount
  tradeMsg : Option String
  success : Bool
deriving Repr, DecidableEq

/-- `processTrade(userId, ticker, quantity, type)` in server.js, after the
user record has been loaded and `currentPrice = STOCKS[ticker]` has been
looked up (the claims about it all concern tickers that have a price).
BUY requires `cash >= totalValue`, then debits cash and delegates to
`updatePortfolio`; SELL delegates first and credits cash only on success;
on success exactly one transaction record is pushed; the record is then
saved. -/
def processTrade (user : UserAccount) (currentPrice : ℚ) (ticker : String)
    (quantity : ℚ) (type : String) : TradeResult :=
  let totalValue := quantity * currentPrice
  if type == "BUY" then
    if user.cash ≥ totalValue then
      let res := updatePortfolio user.portfolio ticker quantity "BUY" currentPrice
      let user1 := { user with cash := user.cash - totalValue, portfolio := res.portfolio }
      let user2 :=
        if res.success then
          { user1 with
            transactions := user1.transactions ++
              [{ action := type, ticker := ticker, quantity := quantity
                 price := currentPrice, tradeValue := totalValue }] }
        else user1
      { user := user2, tradeMsg := some res.tradeMsg, success := res.success }
    else
      { user := user
        tradeMsg := some ("Trade failed: Insufficient cash ($" ++ fmt user.cash ++ ").")
        success := false }
  else if type == "SELL" then
    let res := updatePortfolio user.portfolio ticker quantity "SELL" currentPrice
    if res.success then
      let user1 :=
        { user with
          cash := user.cash + totalValue
          portfolio := res.portfolio
          transactions := user.transactions ++
            [{ action := type, ticker := ticker, quantity := quantity
               price := currentPrice, tradeValue := totalValue }] }
      { user := user1, tradeMsg := some res.tradeMsg, success := true }
    else
      { user := user, tradeMsg := some res.tradeMsg, success := false }
  else { user := user, tradeMsg := none, success := false }

/-- `formatPortfolioForClient(dbPortfolio)` in server.js: the client view
keeps only holdings with quantity > 0, as (ticker, quantity, avgPrice). -/
def formatPortfolioForClient (dbPortfolio : List Holding) : List (String × ℚ × ℚ) :=
  (dbPortfolio.filter (fun h => h.quantity > 0)).map
    (fun h => (h.ticker, h.quantity, h.avgPrice))

/-- The `PORTFOLIO_UPDATE` message sent at the end of `processTrade`. -/
structure PortfolioUpdate where
  cash : ℚ
  portfolio : List (String × ℚ × ℚ)
  tradeMsg : Option String
deriving Repr, DecidableEq

/-- The send at the end of `processTrade`: emitted exactly when
`activeConnections` still holds a connection for the user. -/
def tradeResponse (r : TradeResult) (connected : Bool) : Option PortfolioUpdate :=
  if connected then
    some { cash := r.user.cash
           portfolio := formatPortfolioForClient r.user.portfolio
           tradeMsg := r.tradeMsg }
  else none

/-- The `ALERT_TRIGGERED` payload pushed when an alert fires. -/
structure FireEvent where
  ticker : String
  price : ℚ
  threshold : ℚ
deriving Repr, DecidableEq

/-- The loop body of `checkAndTriggerAlerts(ticker, newPrice)` in
server.js for one connected user: `user.alerts.get(ticker)` is looked up;
the JS guard `threshold && newPrice <= threshold` is truthiness on the
threshold (false exactly when it is 0) conjoined with the comparison; on
firing, the alert is deleted from the map and one `ALERT_TRIGGERED` event
is emitted. -/
def checkAndTriggerAlerts (alerts : List (String × ℚ)) (ticker : String)
    (newPrice : ℚ) : List (String × ℚ) × Option FireEvent :=
  match alerts.lookup ticker with
  | some threshold =>
      if threshold ≠ 0 ∧ newPrice ≤ threshold then
        (alerts.filter (fun kv => kv.1 != ticker),
         some { ticker := ticker, price := newPrice, threshold := threshold })
      else (alerts, none)
  | none => (alerts, none)

/-- The live-connection registry `activeConnections`: user id paired with
a connection identifier (the `ws` handle). -/
abbrev Registry := List (String × Nat)

/-- The admission prologue of `wss.on('connection')` in server.js: a prior
session for the same user id is closed (its connection id is reported)
and deleted; the new connection is installed only when the user record
loads (`User.findById` succeeds) — otherwise an ERROR is sent and the
socket closed without installing anything. -/
def admitConnection (reg : Registry) (userId : String) (conn : Nat)
    (userFound : Bool) : Registry × Option Nat :=
  let closed := reg.lookup userId
  let reg1 := reg.filter (fun kv => kv.1 != userId)
  if userFound then ((userId, conn) :: reg1, closed) else (reg1, closed)

/-- The `ws.on('close')` handler: `activeConnections.delete(userId)`. -/
def removeConnection (reg : Registry) (userId : String) : Registry :=
  reg.filter (fun kv => kv.1 != userId)

/-- One registry-mutating event: a connection admission (with whether the
user record loaded) or a disconnect. -/
inductive RegOp where
  | connect (userId : String) (conn : Nat) (userFound : Bool)
  | disconnect (userId : String)

def applyRegOp (reg : Registry) : RegOp → Registry
  | RegOp.connect u c found => (admitConnection reg u c found).1
  | RegOp.disconnect u => removeConnection reg u

/-- The registry reached from empty by a sequence of admissions and
disconnects. -/
def runRegOps (ops : List RegOp) : Registry := ops.foldl applyRegOp []

/-- Market state: `MARKET_INDEX` and the `STOCKS` price book. -/
structure MarketState where
  marketIndex : ℚ
  stocks : List (String × ℚ)
deriving Repr, DecidableEq

/-- The per-ticker body of `simulatePriceUpdate`:
`price += price * (drift * 0.005 + marketChange); price = Math.max(10, price)`. -/
def tickPrice (oldPrice drift marketChange : ℚ) : ℚ :=
  max 10 (oldPrice + oldPrice * (drift * (5 / 1000) + marketChange))

/-- `simulatePriceUpdate()` in server.js with the `Math.random()` draws
passed in explicitly (`marketR` for the index, `driftR` per ticker, each
drawn from [0,1)): the index moves by `(marketR - 0.5) * 0.1` of itself
and is clamped at 800; each supported ticker's price moves by the drift
`(driftR - 0.5) * 0.5` scaled by volatility 0.005 plus the market change,
clamped at 10.  Returns the new state together with `newPrices` (the
per-tick alert pass it also triggers is modelled by
`checkAndTriggerAlerts`). -/
def simulatePriceUpdate (st : MarketState) (marketR : ℚ) (driftR : String → ℚ) :
    MarketState × List (String × ℚ) :=
  let marketChange := (marketR - 1 / 2) * (1 / 10)
  let newIndex := max 800 (st.marketIndex + st.marketIndex * marketChange)
  let newPrices := SUPPORTED_STOCKS.map (fun tk =>
    (tk, tickPrice ((st.stocks.lookup tk).getD 0) ((driftR tk - 1 / 2) * (1 / 2)) marketChange))
  ({ marketIndex := newIndex, stocks := newPrices }, newPrices)

/-- The initial `STOCKS` book: `100 + Math.random() * 200` per supported
ticker, with the draws (from [0,1)) passed in. -/
def initialStocks (r : String → ℚ) : List (String × ℚ) :=
  SUPPORTED_STOCKS.map (fun tk => (tk, 100 + r tk * 200))

/-- The initial market state: `MARKET_INDEX = 1000.0` and the initial
price book. -/
def initialMarketState (r : String → ℚ) : MarketState :=
  { marketIndex := 1000, stocks := initialStocks r }

/-- `n` firings of the broadcast interval's price step, drawing the tick
randoms from the stream `rands`. -/
def iterateTicks (st : MarketState) (rands : Nat → ℚ × (String → ℚ)) : Nat → MarketState
  | 0 => st
  | n + 1 =>
      let st' := iterateTicks st rands n
      (simulatePriceUpdate st' (rands n).1 (rands n).2).1

/-- One live entry of `activeConnections` as seen by the broadcast loop:
whether `ws.readyState === ws.OPEN`, plus the session's subscription set
(which the later server revision deliberately ignores when sending). -/
structure SessionConn where
  wsOpen : Bool
  email : String
  subscribed : List String
deriving Repr, DecidableEq

/-- The `PRICE_UPDATE` message pushed once per broadcast tick. -/
structure PriceUpdateMsg where
  data : List (String × ℚ)
  cash : ℚ
  portfolio : List (String × ℚ × ℚ)
  activeAlerts : List (String × ℚ)
deriving Repr, DecidableEq

/-- The exact rejection text `processTrade` produces for a BUY with
insufficient cash. -/
def buyRejectMsg (cash : ℚ) : String :=
  "Trade failed: Insufficient cash ($" ++ fmt cash ++ ")."

/-- The exact rejection text `updatePortfolio` produces for a SELL of more
shares than held (`${holding ? holding.quantity : 0}` in the source). -/
def sellRejectMsg (portfolio : List Holding) (tk : String) : String :=
  match portfolio.find? (fun h => h.ticker == tk) with
  | some h => "Trade failed: You only hold " ++ fmt h.quantity ++ " shares of " ++ tk ++ "."
  | none => "Trade failed: You only hold " ++ fmt 0 ++ " shares of " ++ tk ++ "."

/-- The send loop of `broadcastPrices()` in server.js (later revision):
for every entry of `activeConnections`, `allPrices = newPrices` is the
full book; a message is sent exactly when the socket is open and
`User.findById` returns a record, and its `data` field is `allPrices`
regardless of `connection.subscribed`. -/
def broadcastPrices (newPrices : List (String × ℚ))
    (sessions : List (String × SessionConn))
    (findUser : String → Option UserAccount) : List (String × PriceUpdateMsg) :=
  sessions.filterMap (fun entry =>
    let allPrices := newPrices
    if entry.2.wsOpen then
      (findUser entry.1).map (fun user =>
        (entry.1,
         { data := allPrices
           cash := user.cash
           portfolio := formatPortfolioForClient user.portfolio
           activeAlerts := user.alerts }))
    else none)

/-- A user with $1000 cash, no holdings and no history. -/
def thousandCashUser : UserAccount := { newUser "trader@example.com" with cash := 1000 }

/-- A user with $100 cash holding 2 shares of GOOG at average price 50. -/
def smallPortfolioUser : UserAccount :=
  { newUser "small@example.com" with
    cash := 100
    portfolio := [{ ticker := "GOOG", quantity := 2, avgPrice := 50 }] }

/-- A user holding 5 shares of GOOG at average price 100. -/
def fiveShareUser : UserAccount :=
  { newUser "five@example.com" with
    portfolio := [{ ticker := "GOOG", quantity := 5, avgPrice := 100 }] }

/-- One live session for the broadcast witness. -/
def w9sessions : List (String × SessionConn) :=
  [("u1", { wsOpen := true, email := "w9@example.com", subscribed := ["GOOG"] })]

/-- The `PRICE_UPDATE` message the broadcast witness receives. -/
def w9msg : PriceUpdateMsg :=
  { data := (simulatePriceUpdate (initialMarketState (fun _ => 0))
      (1 / 2) (fun _ => 1 / 2)).2
    cash := 100000
    portfolio := []
    activeAlerts := [] }

/-! ### Helper lemmas -/

theorem modifyFirst_find? {α} (p : α → Bool) (f : α → α) (l : List α) (a : α)
    (h : l.find? p = some a) (hfa : p (f a) = true) :
    (modifyFirst p f l).find? p = some (f a) := by
  induction l with
  | nil => simp [List.find?] at h
  | cons x xs ih =>
      by_cases hx : p x = true
      · rw [List.find?_cons_of_pos _ hx] at h
        injection h with h
        subst h
        rw [modifyFirst, if_pos hx, List.find?_cons_of_pos _ hfa]
      · rw [List.find?_cons_of_neg _ hx] at h
        rw [modifyFirst, if_neg hx, List.find?_cons_of_neg _ hx]
        exact ih h

theorem modifyFirst_mem {α} (p : α → Bool) (f : α → α) (l : List α) (b : α)
    (hb : b ∈ modifyFirst p f l) : b ∈ l ∨ ∃ a, l.find? p = some a ∧ b = f a := by
  induction l with
  | nil => simp [modifyFirst] at hb
  | cons x xs ih =>
      by_cases hx : p x = true
      · rw [modifyFirst, if_pos hx] at hb
        rcases List.mem_cons.mp hb with hb | hb
        · exact Or.inr ⟨x, List.find?_cons_of_pos _ hx, hb⟩
        · exact Or.inl (List.mem_cons_of_mem _ hb)
      · rw [modifyFirst, if_neg hx] at hb
        rcases List.mem_cons.mp hb with hb | hb
        · exact Or.inl (hb ▸ List.mem_cons_self _ _)
        · rcases ih hb with hb | ⟨a, ha, hfb⟩
          · exact Or.inl (List.mem_cons_of_mem _ hb)
          · exact Or.inr ⟨a, by rw [List.find?_cons_of_neg _ hx]; exact ha, hfb⟩

theorem lookup_filter_ne {β} (l : List (String × β)) (k : String) :
    (l.filter (fun kv => kv.1 != k)).lookup k = none := by
  induction l with
  | nil => rfl
  | cons kv l ih =>
      by_cases hk : kv.1 = k
      · simp [List.filter, hk, ih]
      · simp only [List.filter]
        have : (kv.1 != k) = true := by simp [hk]
        rw [this]
        have : (k == kv.1) = false := by
          simp [Ne.symm hk]
        simp [List.lookup, this, ih]

theorem find?_filter_ne (l : List Holding) (tk : String) :
    (l.filter (fun h => h.ticker != tk)).find? (fun h => h.ticker == tk) = none := by
  rw [List.find?_eq_none]
  intro h hmem
  have := (List.mem_filter.mp hmem).2
  simpa using this

theorem lookup_map_pair (l : List String) (g : String → ℚ) (tk : String) (h : tk ∈ l) :
    (l.map (fun t => (t, g t))).lookup tk = some (g tk) := by
  induction l with
  | nil => cases h
  | cons x xs ih =>
      rcases List.mem_cons.mp h with h | h
      · subst h
        simp [List.lookup]
      · by_cases hx : tk = x
        · subst hx; simp [List.lookup]
        · have : (tk == x) = false := by simp [hx]
          simp [List.lookup, this, ih h]

theorem countP_keys_le_one {β} (reg : List (String × β)) (u : String)
    (h : (reg.map Prod.fst).Nodup) : reg.countP (fun kv => kv.1 == u) ≤ 1 := by
  induction reg with
  | nil => simp
  | cons kv l ih =>
      rw [List.map_cons, List.nodup_cons] at h
      by_cases hk : kv.1 = u
      · have hz : l.countP (fun kv => kv.1 == u) = 0 := by
          rw [List.countP_eq_zero]
          intro kv' hkv'
          simp only [beq_iff_eq]
          intro he
          exact h.1 (hk ▸ he ▸ List.mem_map_of_mem Prod.fst hkv')
        simp [List.countP_cons, hk, hz]
      · have : (kv.1 == u) = false := by simp [hk]
        simp [List.countP_cons, this]
        exact ih h.2

theorem keys_nodup_filter {β} (reg : List (String × β)) (q : String × β → Bool)
    (h : (reg.map Prod.fst).Nodup) : ((reg.filter q).map Prod.fst).Nodup :=
  h.sublist (List.Sublist.map Prod.fst (List.filter_sublist reg))

theorem keys_nodup_applyRegOp (reg : Registry) (op : RegOp)
    (h : (reg.map Prod.fst).Nodup) : ((applyRegOp reg op).map Prod.fst).Nodup := by
  cases op with
  | connect u c found =>
      simp only [applyRegOp, admitConnection]
      by_cases hf : found = true
      · rw [if_pos hf]
        rw [List.map_cons, List.nodup_cons]
        refine ⟨?_, keys_nodup_filter reg _ h⟩
        intro hmem
        rcases List.mem_map.mp hmem with ⟨kv, hkv, hfst⟩
        have := (List.mem_filter.mp hkv).2
        rw [hfst] at this
        simp at this
      · rw [if_neg hf]
        exact keys_nodup_filter reg _ h
  | disconnect u => exact keys_nodup_filter reg _ h

theorem keys_nodup_runRegOps (ops : List RegOp) :
    ((runRegOps ops).map Prod.fst).Nodup := by
  have main : ∀ (ops : List RegOp) (reg : Registry),
      (reg.map Prod.fst).Nodup → ((ops.foldl applyRegOp reg).map Prod.fst).Nodup := by
    intro ops
    induction ops with
    | nil => intro reg h; exact h
    | cons op ops ih =>
        intro reg h
        exact ih _ (keys_nodup_applyRegOp reg op h)
  exact main ops [] (by simp)

theorem updatePortfolio_buy_success (P : List Holding) (tk : String) (q p : ℚ) :
    (updatePortfolio P tk q "BUY" p).success = true := rfl

/-! ### Claim theorems -/

/-- **C10**: a newly registered account (routes/auth.js `register` creating
`new User({ email, password })`, fields defaulted by UserSchema) starts
with cash 100000.00, an empty holdings set, an empty alert mapping, an
empty transaction log (and an empty subscription list). -/
theorem C10_new_account_defaults (email : String) :
    (newUser email).cash = 100000
  ∧ (newUser email).portfolio = []
  ∧ (newUser email).alerts = []
  ∧ (newUser email).transactions = []
  ∧ (newUser email).subscriptions = [] :=
  ⟨rfl, rfl, rfl, rfl, rfl⟩

/-- **C7** (failing input): `processTrade` never validates the quantity, so
a BUY of quantity −5 at price 100 passes the `cash >= totalValue` check
(the total value is −500), *increases* cash from 1000 to 1500, inserts a
holding with quantity −5, appends a transaction, and reports success —
contradicting the claim that a non-positive quantity performs no persisted
mutation and yields a rejection. -/
theorem C7_negative_quantity_buy_mutates_state :
    thousandCashUser.cash = 1000
  ∧ (processTrade thousandCashUser 100 "GOOG" (-5) "BUY").success = true
  ∧ (processTrade thousandCashUser 100 "GOOG" (-5) "BUY").user.cash = 1500
  ∧ (processTrade thousandCashUser 100 "GOOG" (-5) "BUY").user.portfolio
      = [{ ticker := "GOOG", quantity := -5, avgPrice := 100 }]
  ∧ (processTrade thousandCashUser 100 "GOOG" (-5) "BUY").user.transactions
      = [{ action := "BUY", ticker := "GOOG", quantity := -5, price := 100, tradeValue := -500 }] := by
  refine ⟨rfl, ?_, ?_, ?_, ?_⟩ <;>
    norm_num [processTrade, updatePortfolio, thousandCashUser, newUser]

/-- **C4**: for an account with a stored (positive) alert threshold `t` on
ticker `tk`, an alert-evaluation pass at price `pr ≤ t` fires exactly
once: it emits one `ALERT_TRIGGERED` event, synchronously deletes the
alert (the remaining mapping has no entry for `tk`), and a subsequent
pass at any price `pr' ≤ pr` neither fires nor changes the mapping. -/
theorem C4_alert_fires_exactly_once (alerts : List (String × ℚ)) (tk : String)
    (t pr pr' : ℚ) (hlk : alerts.lookup tk = some t) (ht : 0 < t)
    (hp : pr ≤ t) (_hp' : pr' ≤ pr) :
    checkAndTriggerAlerts alerts tk pr
      = (alerts.filter (fun kv => kv.1 != tk),
         some { ticker := tk, price := pr, threshold := t })
  ∧ (checkAndTriggerAlerts alerts tk pr).1.lookup tk = none
  ∧ checkAndTriggerAlerts (checkAndTriggerAlerts alerts tk pr).1 tk pr'
      = ((checkAndTriggerAlerts alerts tk pr).1, none) := by
  have h1 : checkAndTriggerAlerts alerts tk pr
      = (alerts.filter (fun kv => kv.1 != tk),
         some { ticker := tk, price := pr, threshold := t }) := by
    rw [checkAndTriggerAlerts, hlk]
    exact if_pos ⟨ne_of_gt ht, hp⟩
  refine ⟨h1, ?_, ?_⟩
  · rw [h1]
    exact lookup_filter_ne alerts tk
  · rw [h1, checkAndTriggerAlerts, lookup_filter_ne alerts tk]

/-- **C4** witness: threshold 95 on GOOG, a tick at 90 fires once and
removes the alert; a second tick at 85 does not re-fire. -/
theorem C4_alert_fires_exactly_once_witness :
    (([("GOOG", (95 : ℚ))]).lookup "GOOG" = some 95 ∧ (0 : ℚ) < 95
      ∧ (90 : ℚ) ≤ 95 ∧ (85 : ℚ) ≤ 90)
  ∧ (checkAndTriggerAlerts [("GOOG", 95)] "GOOG" 90).2
      = some { ticker := "GOOG", price := 90, threshold := 95 }
  ∧ checkAndTriggerAlerts (checkAndTriggerAlerts [("GOOG", 95)] "GOOG" 90).1 "GOOG" 85
      = ((checkAndTriggerAlerts [("GOOG", 95)] "GOOG" 90).1, none) :=
  ⟨⟨by decide, by decide, by decide, by decide⟩,
   by rw [(C4_alert_fires_exactly_once [("GOOG", 95)] "GOOG" 95 90 85
        (by decide) (by decide) (by decide) (by decide)).1],
   (C4_alert_fires_exactly_once [("GOOG", 95)] "GOOG" 95 90 85
        (by decide) (by decide) (by decide) (by decide)).2.2⟩

/-- **C5**: the session registry holds at most one live session per user id
after any sequence of admissions and disconnects; admitting a second
connection `c` for a user who already has connection `c0` reports `c0` as
closed, removes it, installs `c`, and leaves exactly one session for that
user id. -/
theorem C5_single_session_per_user (ops : List RegOp) (reg : Registry)
    (u : String) (c c0 : Nat) (hprior : reg.lookup u = some c0) :
    (runRegOps ops).countP (fun kv => kv.1 == u) ≤ 1
  ∧ (admitConnection reg u c true).2 = some c0
  ∧ (admitConnection reg u c true).1.lookup u = some c
  ∧ (admitConnection reg u c true).1.countP (fun kv => kv.1 == u) = 1 := by
  have hz : (reg.filter (fun kv => kv.1 != u)).countP (fun kv => kv.1 == u) = 0 := by
    rw [List.countP_eq_zero]
    intro kv hkv
    have := (List.mem_filter.mp hkv).2
    simpa using this
  refine ⟨countP_keys_le_one _ u (keys_nodup_runRegOps ops), ?_, ?_, ?_⟩
  · simp [admitConnection, hprior]
  · simp [admitConnection, List.lookup]
  · simp [admitConnection, List.countP_cons, hz]

/-- **C5** witness: user "u1" holds connection 7; admitting connection 9
closes 7 and leaves exactly one session. -/
theorem C5_single_session_per_user_witness :
    ([("u1", 7)] : Registry).lookup "u1" = some 7
  ∧ (runRegOps [RegOp.connect "u1" 7 true, RegOp.connect "u1" 9 true]).countP
      (fun kv => kv.1 == "u1") ≤ 1
  ∧ (admitConnection [("u1", 7)] "u1" 9 true).2 = some 7
  ∧ (admitConnection [("u1", 7)] "u1" 9 true).1.countP (fun kv => kv.1 == "u1") = 1 :=
  ⟨by decide,
   (C5_single_session_per_user [RegOp.connect "u1" 7 true, RegOp.connect "u1" 9 true]
      [("u1", 7)] "u1" 9 7 (by decide)).1,
   (C5_single_session_per_user [RegOp.connect "u1" 7 true, RegOp.connect "u1" 9 true]
      [("u1", 7)] "u1" 9 7 (by decide)).2.1,
   (C5_single_session_per_user [RegOp.connect "u1" 7 true, RegOp.connect "u1" 9 true]
      [("u1", 7)] "u1" 9 7 (by decide)).2.2.2⟩

theorem map_fst_map_pair {β} (l : List String) (g : String → β) :
    ((l.map (fun t => (t, g t))).map Prod.fst) = l := by
  rw [List.map_map]
  exact List.map_id l

/-- **C6**: starting from the initial market state (index 1000, each price
`100 + r·200` with draws `r ≥ 0`), after any number of simulation ticks
and for any random draws, the price book still covers exactly the
supported tickers, every price is at least the floor 10 (in particular
positive), and the market index is at least its floor 800. -/
theorem C6_price_and_index_floors (r : String → ℚ) (rands : Nat → ℚ × (String → ℚ))
    (n : Nat) (hr : ∀ tk, 0 ≤ r tk) :
    800 ≤ (iterateTicks (initialMarketState r) rands n).marketIndex
  ∧ (iterateTicks (initialMarketState r) rands n).stocks.map Prod.fst = SUPPORTED_STOCKS
  ∧ ∀ kv ∈ (iterateTicks (initialMarketState r) rands n).stocks, 10 ≤ kv.2 := by
  induction n with
  | zero =>
      refine ⟨by norm_num [iterateTicks, initialMarketState], ?_, ?_⟩
      · simp only [iterateTicks, initialMarketState, initialStocks]
        exact map_fst_map_pair _ _
      · intro kv hkv
        simp only [iterateTicks, initialMarketState, initialStocks] at hkv
        rcases List.mem_map.mp hkv with ⟨tk, _, rfl⟩
        have h200 : (0 : ℚ) ≤ r tk * 200 :=
          mul_nonneg (hr tk) (by norm_num)
        show (10 : ℚ) ≤ 100 + r tk * 200
        linarith
  | succ n _ =>
      rw [iterateTicks]
      refine ⟨le_max_left 800 _, ?_, ?_⟩
      · simp only [simulatePriceUpdate]
        exact map_fst_map_pair _ _
      · intro kv hkv
        simp only [simulatePriceUpdate] at hkv
        rcases List.mem_map.mp hkv with ⟨tk, _, rfl⟩
        exact le_max_left 10 _

/-- **C6** witness: with zero initial draws and a constant random stream,
after 3 ticks the index is still at least 800 and all prices at least 10. -/
theorem C6_price_and_index_floors_witness :
    (∀ tk : String, (0 : ℚ) ≤ (fun _ => (0 : ℚ)) tk)
  ∧ 800 ≤ (iterateTicks (initialMarketState (fun _ => 0))
      (fun _ => (0, fun _ => 0)) 3).marketIndex
  ∧ ∀ kv ∈ (iterateTicks (initialMarketState (fun _ => 0))
      (fun _ => (0, fun _ => 0)) 3).stocks, 10 ≤ kv.2 :=
  ⟨fun _ => le_refl 0,
   (C6_price_and_index_floors (fun _ => 0) (fun _ => (0, fun _ => 0)) 3
      (fun _ => le_refl 0)).1,
   (C6_price_and_index_floors (fun _ => 0) (fun _ => (0, fun _ => 0)) 3
      (fun _ => le_refl 0)).2.2⟩

theorem processTrade_buy_insufficient (user : UserAccount) (p : ℚ) (tk : String)
    (q : ℚ) (h : user.cash < q * p) :
    processTrade user p tk q "BUY"
      = { user := user, tradeMsg := some (buyRejectMsg user.cash), success := false } := by
  have hne : ¬ (q * p ≤ user.cash) := not_le.mpr h
  simp [processTrade, buyRejectMsg, hne]

theorem processTrade_buy_ok (user : UserAccount) (p : ℚ) (tk : String) (q : ℚ)
    (hc : q * p ≤ user.cash) :
    processTrade user p tk q "BUY"
      = { user :=
            { user with
              cash := user.cash - q * p
              portfolio := (updatePortfolio user.portfolio tk q "BUY" p).portfolio
              transactions := user.transactions ++
                [{ action := "BUY", ticker := tk, quantity := q, price := p,
                   tradeValue := q * p }] }
          tradeMsg := some (updatePortfolio user.portfolio tk q "BUY" p).tradeMsg
          success := true } := by
  simp [processTrade, hc, updatePortfolio_buy_success]

theorem processTrade_sell_of_fail (user : UserAccount) (p : ℚ) (tk : String) (q : ℚ)
    (hfail : (updatePortfolio user.portfolio tk q "SELL" p).success = false) :
    processTrade user p tk q "SELL"
      = { user := user
          tradeMsg := some (updatePortfolio user.portfolio tk q "SELL" p).tradeMsg
          success := false } := by
  simp [processTrade, hfail]

theorem processTrade_sell_ok (user : UserAccount) (p : ℚ) (tk : String) (q : ℚ)
    (hs : (updatePortfolio user.portfolio tk q "SELL" p).success = true) :
    processTrade user p tk q "SELL"
      = { user :=
            { user with
              cash := user.cash + q * p
              portfolio := (updatePortfolio user.portfolio tk q "SELL" p).portfolio
              transactions := user.transactions ++
                [{ action := "SELL", ticker := tk, quantity := q, price := p,
                   tradeValue := q * p }] }
          tradeMsg := some (updatePortfolio user.portfolio tk q "SELL" p).tradeMsg
          success := true } := by
  simp [processTrade, hs]

theorem processTrade_other (user : UserAccount) (p : ℚ) (tk : String) (q : ℚ)
    (ty : String) (h1 : ty ≠ "BUY") (h2 : ty ≠ "SELL") :
    processTrade user p tk q ty = { user := user, tradeMsg := none, success := false } := by
  simp [processTrade, h1, h2]

theorem updatePortfolio_sell_none (P : List Holding) (tk : String) (q p : ℚ)
    (hf : P.find? (fun h => h.ticker == tk) = none) :
    updatePortfolio P tk q "SELL" p
      = { portfolio := P, tradeMsg := sellRejectMsg P tk, success := false } := by
  simp [updatePortfolio, sellRejectMsg, hf]

theorem updatePortfolio_sell_short (P : List Holding) (tk : String) (q p : ℚ)
    (a : Holding) (hf : P.find? (fun h => h.ticker == tk) = some a)
    (hlt : a.quantity < q) :
    updatePortfolio P tk q "SELL" p
      = { portfolio := P, tradeMsg := sellRejectMsg P tk, success := false } := by
  simp [updatePortfolio, sellRejectMsg, hf, hlt]

/-- **C1**: a BUY whose total value exceeds the user's cash and a SELL
whose quantity exceeds the current holding of the ticker both leave the
saved user record — cash, holdings and transaction log — exactly as it
was, report `success = false`, and deliver the corresponding
`PORTFOLIO_UPDATE` rejection message to the owning session. -/
theorem C1_rejected_trades_leave_account_unchanged (user : UserAccount) (p : ℚ)
    (tk : String) (qb qs : ℚ)
    (hbuy : user.cash < qb * p)
    (hsell : ((user.portfolio.find? (fun h => h.ticker == tk)).map
        Holding.quantity).getD 0 < qs) :
    processTrade user p tk qb "BUY"
      = { user := user, tradeMsg := some (buyRejectMsg user.cash), success := false }
  ∧ tradeResponse (processTrade user p tk qb "BUY") true
      = some { cash := user.cash, portfolio := formatPortfolioForClient user.portfolio,
               tradeMsg := some (buyRejectMsg user.cash) }
  ∧ processTrade user p tk qs "SELL"
      = { user := user, tradeMsg := some (sellRejectMsg user.portfolio tk),
          success := false }
  ∧ tradeResponse (processTrade user p tk qs "SELL") true
      = some { cash := user.cash, portfolio := formatPortfolioForClient user.portfolio,
               tradeMsg := some (sellRejectMsg user.portfolio tk) } := by
  have hb := processTrade_buy_insufficient user p tk qb hbuy
  have hs : updatePortfolio user.portfolio tk qs "SELL" p
      = { portfolio := user.portfolio, tradeMsg := sellRejectMsg user.portfolio tk,
          success := false } := by
    cases hf : user.portfolio.find? (fun h => h.ticker == tk) with
    | none => exact updatePortfolio_sell_none _ _ _ _ hf
    | some a =>
        refine updatePortfolio_sell_short _ _ _ _ _ hf ?_
        simpa [hf] using hsell
  have hsp : processTrade user p tk qs "SELL"
      = { user := user, tradeMsg := some (sellRejectMsg user.portfolio tk),
          success := false } := by
    have hfail := processTrade_sell_of_fail user p tk qs (by rw [hs])
    rw [hs] at hfail
    exact hfail
  exact ⟨hb, by rw [hb]; rfl, hsp, by rw [hsp]; rfl⟩

/-- **C1** witness: a user with $100 cash and 2 GOOG shares; a BUY of 5 at
price 100 and a SELL of 3 are both rejected without mutation. -/
theorem C1_rejected_trades_leave_account_unchanged_witness :
    (smallPortfolioUser.cash < 5 * 100
      ∧ ((smallPortfolioUser.portfolio.find? (fun h => h.ticker == "GOOG")).map
          Holding.quantity).getD 0 < 3)
  ∧ processTrade smallPortfolioUser 100 "GOOG" 5 "BUY"
      = { user := smallPortfolioUser,
          tradeMsg := some (buyRejectMsg smallPortfolioUser.cash), success := false }
  ∧ processTrade smallPortfolioUser 100 "GOOG" 3 "SELL"
      = { user := smallPortfolioUser,
          tradeMsg := some (sellRejectMsg smallPortfolioUser.portfolio "GOOG"),
          success := false } :=
  ⟨⟨by norm_num [smallPortfolioUser, newUser], by decide⟩,
   (C1_rejected_trades_leave_account_unchanged smallPortfolioUser 100 "GOOG" 5 3
      (by norm_num [smallPortfolioUser, newUser]) (by decide)).1,
   (C1_rejected_trades_leave_account_unchanged smallPortfolioUser 100 "GOOG" 5 3
      (by norm_num [smallPortfolioUser, newUser]) (by decide)).2.2.1⟩

/-- **C2**: a trade that succeeds appends exactly one transaction record,
whose `tradeValue` is `quantity * price` at execution time; a trade that
fails appends nothing. -/
theorem C2_successful_trade_appends_one_transaction (user : UserAccount) (p : ℚ)
    (tk : String) (q : ℚ) (ty : String) :
    ((processTrade user p tk q ty).success = true →
       (processTrade user p tk q ty).user.transactions
         = user.transactions ++
             [{ action := ty, ticker := tk, quantity := q, price := p,
                tradeValue := q * p }])
  ∧ ((processTrade user p tk q ty).success = false →
       (processTrade user p tk q ty).user.transactions = user.transactions) := by
  by_cases hty : ty = "BUY"
  · subst hty
    by_cases hc : q * p ≤ user.cash
    · rw [processTrade_buy_ok user p tk q hc]
      exact ⟨fun _ => rfl, fun hfalse => by cases hfalse⟩
    · rw [processTrade_buy_insufficient user p tk q (not_le.mp hc)]
      refine ⟨fun htrue => ?_, fun _ => rfl⟩
      simp at htrue
  · by_cases hty2 : ty = "SELL"
    · subst hty2
      cases hsucc : (updatePortfolio user.portfolio tk q "SELL" p).success with
      | true =>
          rw [processTrade_sell_ok user p tk q hsucc]
          exact ⟨fun _ => rfl, fun hfalse => by cases hfalse⟩
      | false =>
          rw [processTrade_sell_of_fail user p tk q hsucc]
          refine ⟨fun htrue => ?_, fun _ => rfl⟩
          simp at htrue
    · rw [processTrade_other user p tk q ty hty hty2]
      refine ⟨fun htrue => ?_, fun _ => rfl⟩
      simp at htrue

/-- **C2** witness: a fresh user buying 5 GOOG at 100 succeeds and the log
gains exactly the one record with tradeValue 500. -/
theorem C2_successful_trade_appends_one_transaction_witness :
    (processTrade (newUser "w2@example.com") 100 "GOOG" 5 "BUY").success = true
  ∧ (processTrade (newUser "w2@example.com") 100 "GOOG" 5 "BUY").user.transactions
      = (newUser "w2@example.com").transactions ++
          [{ action := "BUY", ticker := "GOOG", quantity := 5, price := 100,
             tradeValue := 5 * 100 }] :=
  ⟨by norm_num [processTrade, updatePortfolio, newUser],
   (C2_successful_trade_appends_one_transaction (newUser "w2@example.com")
      100 "GOOG" 5 "BUY").1
     (by norm_num [processTrade, updatePortfolio, newUser])⟩

/-- **C3**: for an existing holding (q0 shares at average a0), a BUY of q
at price p updates the holding to q0+q shares at the quantity-weighted
average (q0·a0 + q·p)/(q0+q); a successful SELL of q' (leaving a positive
remainder) only decrements the quantity and leaves avgPrice untouched. -/
theorem C3_buy_weighted_average_sell_keeps_avg (portfolio : List Holding)
    (tk : String) (q p q' q0 a0 : ℚ)
    (hfind : portfolio.find? (fun h => h.ticker == tk)
        = some { ticker := tk, quantity := q0, avgPrice := a0 })
    (hsell : q' ≤ q0) (hleft : q0 - q' ≠ 0) :
    (updatePortfolio portfolio tk q "BUY" p).portfolio.find? (fun h => h.ticker == tk)
      = some { ticker := tk, quantity := q0 + q,
               avgPrice := (q0 * a0 + q * p) / (q0 + q) }
  ∧ (updatePortfolio portfolio tk q' "SELL" p).success = true
  ∧ (updatePortfolio portfolio tk q' "SELL" p).portfolio.find?
        (fun h => h.ticker == tk)
      = some { ticker := tk, quantity := q0 - q', avgPrice := a0 } := by
  have hnlt : ¬ (({ ticker := tk, quantity := q0, avgPrice := a0 } : Holding).quantity < q') :=
    not_lt.mpr hsell
  have hbuy : (updatePortfolio portfolio tk q "BUY" p).portfolio
      = modifyFirst (fun h => h.ticker == tk)
          (fun h =>
            { h with
              avgPrice := (h.quantity * h.avgPrice + q * p) / (h.quantity + q)
              quantity := h.quantity + q }) portfolio := by
    simp [updatePortfolio, hfind]
  have hs1 : (updatePortfolio portfolio tk q' "SELL" p).success = true := by
    simp [updatePortfolio, hfind, hnlt]
  have hs2 : (updatePortfolio portfolio tk q' "SELL" p).portfolio
      = modifyFirst (fun h => h.ticker == tk)
          (fun h => { h with quantity := h.quantity - q' }) portfolio := by
    simp [updatePortfolio, hfind, hnlt, hleft]
  refine ⟨?_, hs1, ?_⟩
  · rw [hbuy]
    exact modifyFirst_find? _ _ _ _ hfind (by simp)
  · rw [hs2]
    exact modifyFirst_find? _ _ _ _ hfind (by simp)

/-- **C3** witness: buying 10 @ 100 then 10 @ 200 yields 20 shares at
average 150; selling 5 leaves 5 shares at the untouched average. -/
theorem C3_buy_weighted_average_sell_keeps_avg_witness :
    (([{ ticker := "GOOG", quantity := 10, avgPrice := 100 }] :
        List Holding).find? (fun h => h.ticker == "GOOG")
      = some { ticker := "GOOG", quantity := 10, avgPrice := 100 }
      ∧ (5 : ℚ) ≤ 10 ∧ (10 : ℚ) - 5 ≠ 0)
  ∧ (updatePortfolio [{ ticker := "GOOG", quantity := 10, avgPrice := 100 }]
        "GOOG" 10 "BUY" 200).portfolio.find? (fun h => h.ticker == "GOOG")
      = some { ticker := "GOOG", quantity := 10 + 10,
               avgPrice := (10 * 100 + 10 * 200) / (10 + 10) }
  ∧ ((10 : ℚ) * 100 + 10 * 200) / (10 + 10) = 150
  ∧ (updatePortfolio [{ ticker := "GOOG", quantity := 10, avgPrice := 100 }]
        "GOOG" 5 "SELL" 200).portfolio.find? (fun h => h.ticker == "GOOG")
      = some { ticker := "GOOG", quantity := 10 - 5, avgPrice := 100 } :=
  ⟨⟨by decide, by decide, by norm_num⟩,
   (C3_buy_weighted_average_sell_keeps_avg
      [{ ticker := "GOOG", quantity := 10, avgPrice := 100 }] "GOOG"
      10 200 5 10 100 (by decide) (by decide) (by norm_num)).1,
   by norm_num,
   (C3_buy_weighted_average_sell_keeps_avg
      [{ ticker := "GOOG", quantity := 10, avgPrice := 100 }] "GOOG"
      10 200 5 10 100 (by decide) (by decide) (by norm_num)).2.2⟩

theorem updatePortfolio_pos (P : List Holding) (tk : String) (q p : ℚ) (ty : String)
    (hq : 0 < q) (hinv : ∀ h ∈ P, 0 < h.quantity) :
    ∀ h ∈ (updatePortfolio P tk q ty p).portfolio, 0 < h.quantity := by
  by_cases hty : ty = "BUY"
  · subst hty
    cases hf : P.find? (fun h => h.ticker == tk) with
    | some a =>
        have hres : (updatePortfolio P tk q "BUY" p).portfolio
            = modifyFirst (fun h => h.ticker == tk)
                (fun h =>
                  { h with
                    avgPrice := (h.quantity * h.avgPrice + q * p) / (h.quantity + q)
                    quantity := h.quantity + q }) P := by
          simp [updatePortfolio, hf]
        rw [hres]
        intro h hmem
        rcases modifyFirst_mem _ _ _ _ hmem with hmem | ⟨a', ha', rfl⟩
        · exact hinv h hmem
        · have ha'P : a' ∈ P := List.mem_of_find?_eq_some ha'
          have := hinv a' ha'P
          show 0 < a'.quantity + q
          linarith
    | none =>
        have hres : (updatePortfolio P tk q "BUY" p).portfolio
            = P ++ [{ ticker := tk, quantity := q, avgPrice := p }] := by
          simp [updatePortfolio, hf]
        rw [hres]
        intro h hmem
        rcases List.mem_append.mp hmem with hmem | hmem
        · exact hinv h hmem
        · rw [List.mem_singleton.mp hmem]
          exact hq
  · by_cases hty2 : ty = "SELL"
    · subst hty2
      cases hf : P.find? (fun h => h.ticker == tk) with
      | none =>
          have hres : (updatePortfolio P tk q "SELL" p).portfolio = P := by
            simp [updatePortfolio, hf]
          rw [hres]; exact hinv
      | some a =>
          by_cases hlt : a.quantity < q
          · have hres : (updatePortfolio P tk q "SELL" p).portfolio = P := by
              simp [updatePortfolio, hf, hlt]
            rw [hres]; exact hinv
          · have hge : q ≤ a.quantity := not_lt.mp hlt
            by_cases hz : a.quantity - q = 0
            · have hres : (updatePortfolio P tk q "SELL" p).portfolio
                  = (modifyFirst (fun h => h.ticker == tk)
                      (fun h => { h with quantity := h.quantity - q }) P).filter
                      (fun h => h.ticker != tk) := by
                simp [updatePortfolio, hf, hlt, hz]
              rw [hres]
              intro h hmem
              have hmem1 := (List.mem_filter.mp hmem).1
              have hne := (List.mem_filter.mp hmem).2
              rcases modifyFirst_mem _ _ _ _ hmem1 with hmem2 | ⟨a', ha', rfl⟩
              · exact hinv h hmem2
              · exfalso
                have hpa' := List.find?_some ha'
                simp only [beq_iff_eq] at hpa'
                simp only [bne_iff_ne, ne_eq] at hne
                exact hne hpa'
            · have hres : (updatePortfolio P tk q "SELL" p).portfolio
                  = modifyFirst (fun h => h.ticker == tk)
                      (fun h => { h with quantity := h.quantity - q }) P := by
                simp [updatePortfolio, hf, hlt, hz]
              rw [hres]
              intro h hmem
              rcases modifyFirst_mem _ _ _ _ hmem with hmem2 | ⟨a', ha', rfl⟩
              · exact hinv h hmem2
              · rw [hf] at ha'
                injection ha' with ha'
                subst ha'
                show 0 < a.quantity - q
                have hqa : q ≠ a.quantity := fun he => hz (by rw [← he]; ring)
                have : q < a.quantity := lt_of_le_of_ne hge hqa
                linarith
    · have hres : (updatePortfolio P tk q ty p).portfolio = P := by
        simp [updatePortfolio, hty, hty2]
      rw [hres]; exact hinv

theorem updatePortfolio_sell_all (P : List Holding) (tk : String) (q p a0 : ℚ)
    (hfind : P.find? (fun h => h.ticker == tk)
        = some { ticker := tk, quantity := q, avgPrice := a0 }) :
    (updatePortfolio P tk q "SELL" p).success = true
  ∧ (updatePortfolio P tk q "SELL" p).portfolio.find? (fun h => h.ticker == tk)
      = none := by
  have hnlt : ¬ (({ ticker := tk, quantity := q, avgPrice := a0 } : Holding).quantity < q) :=
    not_lt.mpr le_rfl
  constructor
  · simp [updatePortfolio, hfind, hnlt]
  · have hres : (updatePortfolio P tk q "SELL" p).portfolio
        = (modifyFirst (fun h => h.ticker == tk)
            (fun h => { h with quantity := h.quantity - q }) P).filter
            (fun h => h.ticker != tk) := by
      simp [updatePortfolio, hfind, hnlt]
    rw [hres]
    exact find?_filter_ne _ tk

/-- **C8**: starting from a portfolio whose holdings all have positive
quantity, a trade with positive quantity leaves all stored holdings
positive (no holding with quantity ≤ 0 is ever inserted or left); a SELL
of the entire held quantity removes the ticker from the set; and the
client view then reports exactly the stored holdings (a holding is
reported iff it is present, iff its quantity is positive). -/
theorem C8_holding_present_iff_positive (user : UserAccount) (p : ℚ) (tk : String)
    (q a : ℚ) (ty : String) (hq : 0 < q)
    (hinv : ∀ h ∈ user.portfolio, 0 < h.quantity) :
    (∀ h ∈ (processTrade user p tk q ty).user.portfolio, 0 < h.quantity)
  ∧ (user.portfolio.find? (fun h => h.ticker == tk)
        = some { ticker := tk, quantity := q, avgPrice := a } →
      (processTrade user p tk q "SELL").success = true
      ∧ (processTrade user p tk q "SELL").user.portfolio.find?
          (fun h => h.ticker == tk) = none)
  ∧ formatPortfolioForClient (processTrade user p tk q ty).user.portfolio
      = (processTrade user p tk q ty).user.portfolio.map
          (fun h => (h.ticker, h.quantity, h.avgPrice)) := by
  have hpost : ∀ h ∈ (processTrade user p tk q ty).user.portfolio, 0 < h.quantity := by
    by_cases hty : ty = "BUY"
    · subst hty
      by_cases hc : q * p ≤ user.cash
      · rw [processTrade_buy_ok user p tk q hc]
        exact updatePortfolio_pos user.portfolio tk q p "BUY" hq hinv
      · rw [processTrade_buy_insufficient user p tk q (not_le.mp hc)]
        exact hinv
    · by_cases hty2 : ty = "SELL"
      · subst hty2
        cases hsucc : (updatePortfolio user.portfolio tk q "SELL" p).success with
        | true =>
            rw [processTrade_sell_ok user p tk q hsucc]
            exact updatePortfolio_pos user.portfolio tk q p "SELL" hq hinv
        | false =>
            rw [processTrade_sell_of_fail user p tk q hsucc]
            exact hinv
      · rw [processTrade_other user p tk q ty hty hty2]
        exact hinv
  refine ⟨hpost, ?_, ?_⟩
  · intro hfind
    have hall := updatePortfolio_sell_all user.portfolio tk q p a hfind
    rw [processTrade_sell_ok user p tk q hall.1]
    exact ⟨rfl, hall.2⟩
  · simp only [formatPortfolioForClient]
    congr 1
    refine List.filter_eq_self.mpr ?_
    intro h hm
    simpa using hpost h hm

/-- **C8** witness: a user holding 5 GOOG sells all 5; the ticker is
removed from the holdings set and all remaining holdings stay positive. -/
theorem C8_holding_present_iff_positive_witness :
    ((0 : ℚ) < 5
      ∧ (∀ h ∈ fiveShareUser.portfolio, 0 < h.quantity)
      ∧ fiveShareUser.portfolio.find? (fun h => h.ticker == "GOOG")
          = some { ticker := "GOOG", quantity := 5, avgPrice := 100 })
  ∧ (∀ h ∈ (processTrade fiveShareUser 120 "GOOG" 5 "SELL").user.portfolio,
        0 < h.quantity)
  ∧ (processTrade fiveShareUser 120 "GOOG" 5 "SELL").user.portfolio.find?
      (fun h => h.ticker == "GOOG") = none :=
  ⟨⟨by decide, by decide, by decide⟩,
   (C8_holding_present_iff_positive fiveShareUser 120 "GOOG" 5 100 "SELL"
      (by decide) (by decide)).1,
   ((C8_holding_present_iff_positive fiveShareUser 120 "GOOG" 5 100 "SELL"
      (by decide) (by decide)).2.1 (by decide)).2⟩

/-- **C9**: every `PRICE_UPDATE` message pushed on a broadcast tick carries
the full new price book as its `data` field — one entry per supported
ticker — and the set of messages sent is unchanged if every session's
subscription set is replaced arbitrarily: subscriptions are only a
client-side display filter. -/
theorem C9_broadcast_sends_full_pricebook (st : MarketState) (mr : ℚ)
    (dr : String → ℚ) (sessions : List (String × SessionConn))
    (findUser : String → Option UserAccount) (uid : String) (msg : PriceUpdateMsg)
    (hmem : (uid, msg) ∈ broadcastPrices (simulatePriceUpdate st mr dr).2
        sessions findUser) :
    msg.data = (simulatePriceUpdate st mr dr).2
  ∧ (∀ tk ∈ SUPPORTED_STOCKS, ∃ pr, msg.data.lookup tk = some pr)
  ∧ ∀ f : String → List String,
      broadcastPrices (simulatePriceUpdate st mr dr).2
        (sessions.map (fun e => (e.1, { e.2 with subscribed := f e.1 }))) findUser
      = broadcastPrices (simulatePriceUpdate st mr dr).2 sessions findUser := by
  have hdata : msg.data = (simulatePriceUpdate st mr dr).2 := by
    simp only [broadcastPrices] at hmem
    rcases List.mem_filterMap.mp hmem with ⟨entry, _, hfe⟩
    by_cases hopen : entry.2.wsOpen = true
    · rw [if_pos hopen] at hfe
      rcases Option.map_eq_some'.mp hfe with ⟨u, _, hpair⟩
      injection hpair with h1 h2
      rw [← h2]
    · rw [if_neg hopen] at hfe
      cases hfe
  refine ⟨hdata, ?_, ?_⟩
  · intro tk htk
    rw [hdata]
    simp only [simulatePriceUpdate]
    exact ⟨_, lookup_map_pair SUPPORTED_STOCKS _ tk htk⟩
  · intro f
    simp only [broadcastPrices]
    rw [List.filterMap_map]
    rfl

/-- **C9** witness: a single session subscribed only to GOOG still receives
the full price book, with an entry for every supported ticker. -/
theorem C9_broadcast_sends_full_pricebook_witness :
    ("u1", w9msg) ∈ broadcastPrices
        (simulatePriceUpdate (initialMarketState (fun _ => 0)) (1 / 2)
          (fun _ => 1 / 2)).2
        w9sessions (fun _ => some (newUser "w9@example.com"))
  ∧ w9msg.data = (simulatePriceUpdate (initialMarketState (fun _ => 0)) (1 / 2)
        (fun _ => 1 / 2)).2
  ∧ ∀ tk ∈ SUPPORTED_STOCKS, ∃ pr, w9msg.data.lookup tk = some pr :=
  ⟨by simp [broadcastPrices, w9sessions, w9msg, newUser, formatPortfolioForClient],
   (C9_broadcast_sends_full_pricebook (initialMarketState (fun _ => 0)) (1 / 2)
      (fun _ => 1 / 2) w9sessions (fun _ => some (newUser "w9@example.com"))
      "u1" w9msg
      (by simp [broadcastPrices, w9sessions, w9msg, newUser,
        formatPortfolioForClient])).1,
   (C9_broadcast_sends_full_pricebook (initialMarketState (fun _ => 0)) (1 / 2)
      (fun _ => 1 / 2) w9sessions (fun _ => some (newUser "w9@example.com"))
      "u1" w9msg
      (by simp [broadcastPrices, w9sessions, w9msg, newUser,
        formatPortfolioForClient])).2.1⟩
